import Mathlib

/-!
Verification of the veggibuddy-client rendering core against its
natural-language specification.

The development shallowly embeds the TypeScript sources:

* `src/utilities/render/structed-view.ts` — the structured-memory codec
  (`StructedView.append`, the `StructedViewSupport` interface);
* `src/utilities/render/vector.ts` and the `Matrix` class
  (`getAlignment` / `getSize` / `writeStructedView`, component access);
* `src/utilities/render/struct.ts` — the `Struct` constructor's
  offset/alignment/size computation;
* `vertices-view.ts` — the normalized byte encoders;
* `vertex-array.ts` — `getStrideAndAttributes` and index-width selection;
* the deferred render scheduler (`Renderer` in `render.ts`);
* the asynchronous texture-destruction queue (`texture.ts`);
* the GLB binary parser (`glb/parser.ts`).

JavaScript numbers are modelled as rationals (`ℚ`) where fractional
arithmetic matters and as naturals/integers where the source only ever
holds integral values; typed-array stores truncate toward zero and wrap,
exactly as the ECMAScript `SetValueInBuffer` conversions do.
-/

namespace VB

/-! ## Structured-memory codec (`structed-view.ts`, `vector.ts`, `Matrix`)

`SVal` is the closed set of values implementing `StructedViewSupport`:
plain numbers (struct scalar fields), `Vector`, `Matrix` and nested
`Struct`.  A `Vector`'s runtime dimension is `data.length`; a `Matrix`
is modelled with `data.length = column * row`, which is what the
`zero`/`identity` constructors produce.  The TypeScript type
`AllowDimension` restricts dimensions to 2, 3, 4. -/

inductive SVal where
  | scalar : SVal
  | vec : ℕ → SVal
  | mat : ℕ → ℕ → SVal
  | struct : List (String × SVal) → SVal

/-- JS `padding = (align - (offset % align)) % align` (all operands are
non-negative integers here, so JS `%` agrees with `Nat.mod`). -/
def pad (offset align : ℕ) : ℕ := (align - offset % align) % align

/-- JS `Math.ceil(size / alignment) * alignment` for a positive
`alignment` (the `Struct` constructor's final padding step; `alignment`
is zero only for a struct with no fields, which the source never builds). -/
def roundUp (size align : ℕ) : ℕ := (size + align - 1) / align * align

mutual

/-- `getAlignment()`:  scalars are 4-byte aligned; `Vector.getAlignment`
returns 16 when `dimension > 2` and 8 otherwise; `Matrix.getAlignment`
does the same on `column`; `Struct.getAlignment` returns the running
`max` computed by the constructor. -/
def getAlignment : SVal → ℕ
  | .scalar => 4
  | .vec d => if 2 < d then 16 else 8
  | .mat c _ => if 2 < c then 16 else 8
  | .struct fields => (structScan fields 0 0).2

/-- `getSize()`: scalars are 4 bytes; `Vector.getSize` is
`data.length * 4`; `Matrix.getSize` is `rowSize * row * 4` with
`rowSize = column > 2 ? 4 : 2`; `Struct.getSize` is the accumulated
field size rounded up to the struct's alignment. -/
def getSize : SVal → ℕ
  | .scalar => 4
  | .vec d => 4 * d
  | .mat c r => (if 2 < c then 4 else 2) * r * 4
  | .struct fields =>
      let p := structScan fields 0 0
      roundUp p.1 p.2

/-- The loop of the `Struct` constructor: for each field in declaration
order, pad the running size up to the field's alignment, add the field's
size, and take the running `max` of alignments.  Returns
`(size before final rounding, alignment)`. -/
def structScan : List (String × SVal) → ℕ → ℕ → ℕ × ℕ
  | [], size, alignment => (size, alignment)
  | (_, v) :: rest, size, alignment =>
      structScan rest (size + pad size (getAlignment v) + getSize v)
        (max alignment (getAlignment v))

end

/-- The per-field offsets stored by the `Struct` constructor
(`this.offsets[key] = this.size` right after the padding step). -/
def structOffsets : List (String × SVal) → ℕ → List (String × ℕ)
  | [], _ => []
  | (k, v) :: rest, size =>
      let o := size + pad size (getAlignment v)
      (k, o) :: structOffsets rest (o + getSize v)

/-- The number of bytes `writeStructedView` reports: `4` for a scalar
set through `setFloatNumber`/`set*Integer`, `data.length * 4` for
`Vector` and `Matrix` (the matrix writes its components contiguously
and returns `this.data.length * 4`), and `this.size` for `Struct`. -/
def writeLen : SVal → ℕ
  | .scalar => 4
  | .vec d => 4 * d
  | .mat c r => 4 * (c * r)
  | .struct fields => getSize (.struct fields)

/-- The byte position `StructedView.append` actually writes at:
`offset + padding`. -/
def appendOffset (offset : ℕ) (v : SVal) : ℕ :=
  offset + pad offset (getAlignment v)

/-- The value `StructedView.append` returns:
`padding + value.writeStructedView(this, offset + padding)`
(`updateGPUBuffer` passes the length through unchanged). -/
def appendResult (offset : ℕ) (v : SVal) : ℕ :=
  pad offset (getAlignment v) + writeLen v

/-- The descriptor of spec scenario 8:
`{position: vec3, color: vec4, transform: mat4x4}`. -/
def c1Descriptor : List (String × SVal) :=
  [("position", .vec 3), ("color", .vec 4), ("transform", .mat 4 4)]

/-! ## Normalized byte encoders (`vertices-view.ts`)

`DataView.setUint8` / `setInt8` convert their JS-number argument by
truncation toward zero followed by reduction modulo `2^8` (ECMAScript
`ToUint8` / `ToInt8`).  The float arithmetic of the encoders is modelled
over `ℚ`; at the inputs the theorems evaluate, the double rounding error
is far smaller than the distance to the nearest truncation boundary, so
the rational model and the IEEE evaluation agree. -/

/-- ECMAScript `ToIntegerOrInfinity` on a finite number: truncation
toward zero. -/
def jsTrunc (q : ℚ) : ℤ := if 0 ≤ q then ⌊q⌋ else ⌈q⌉

/-- ECMAScript `ToUint8`. -/
def toUint8 (q : ℚ) : ℤ := jsTrunc q % 256

/-- ECMAScript `ToInt8`. -/
def toInt8 (q : ℚ) : ℤ :=
  if jsTrunc q % 256 < 128 then jsTrunc q % 256 else jsTrunc q % 256 - 256

/-- `VerticesView.setNormalizedUnsignedByte`: stores
`value * 0xff` through `setUint8`. -/
def setNormalizedUnsignedByte (value : ℚ) : ℤ := toUint8 (value * 255)

/-- `VerticesView.setNormalizedSignedByte`: stores
`(value * 0xff - 1) / 2` through `setInt8`. -/
def setNormalizedSignedByte (value : ℚ) : ℤ := toInt8 ((value * 255 - 1) / 2)

/-- The documented unorm8 decode formula `v / 255` (WebGPU's
unsigned-normalized conversion, quoted by the spec). -/
def decodeUnorm8 (v : ℤ) : ℚ := (v : ℚ) / 255

/-- The documented snorm8 decode formula `max(v / 127, -1)` (WebGPU's
signed-normalized conversion, quoted by the spec). -/
def decodeSnorm8 (v : ℤ) : ℚ := max ((v : ℚ) / 127) (-1)

/-! ## Vector component access (`vector.ts`) -/

/-- A JS read of `Float32Array` element `axis`: in-range reads give the
element, out-of-range reads give `undefined`. -/
inductive JsNum where
  | undefined : JsNum
  | num : ℚ → JsNum
deriving DecidableEq

inductive VecErr where
  | rangeError : VecErr
deriving DecidableEq

/-- `Vector.get(axis)`: throws `RangeError("Index Out Of Range")` when
`axis >= this.dimension`, otherwise returns `this.data[axis]`
(`undefined` for a negative index — a typed array has no such element). -/
def vectorGet (data : List ℚ) (axis : ℤ) : Except VecErr JsNum :=
  if (data.length : ℤ) ≤ axis then .error .rangeError
  else if 0 ≤ axis then .ok (.num (data.getD axis.toNat 0))
  else .ok .undefined

/-- `Vector.set(index, value)`: throws when `index >= this.dimension`,
otherwise stores into `this.data[index]` (a typed-array store at a
negative index is silently ignored). -/
def vectorSet (data : List ℚ) (index : ℤ) (value : ℚ) :
    Except VecErr (List ℚ) :=
  if (data.length : ℤ) ≤ index then .error .rangeError
  else if 0 ≤ index then .ok (data.set index.toNat value)
  else .ok data

/-! ## Vertex buffer layouts (`vertex-array.ts`) -/

/-- The wire-type tags of `vertex-property-type.ts` that exist in the
enums (the `x3` variants of the 8/16-bit encodings are commented out in
the source). -/
inductive VFormat where
  | sint32 | uint32 | float32
  | sint8x2 | sint8x4 | uint8x2 | uint8x4
  | unorm8x2 | unorm8x4 | snorm8x2 | snorm8x4
  | sint16x2 | sint16x4 | uint16x2 | uint16x4
  | unorm16x2 | unorm16x4 | snorm16x2 | snorm16x4
  | float16x2 | float16x4
  | sint32x2 | sint32x3 | sint32x4
  | uint32x2 | uint32x3 | uint32x4
  | float32x2 | float32x3 | float32x4
deriving DecidableEq

/-- The per-format byte sizes from the `switch` in
`VertexArray.getStrideAndAttributes`. -/
def formatSize : VFormat → ℕ
  | .sint8x2 | .uint8x2 | .snorm8x2 | .unorm8x2 => 2
  | .sint8x4 | .uint8x4 | .snorm8x4 | .unorm8x4
  | .sint16x2 | .uint16x2 | .snorm16x2 | .unorm16x2
  | .float16x2 | .sint32 | .uint32 | .float32 => 4
  | .sint16x4 | .uint16x4 | .snorm16x4 | .unorm16x4
  | .float16x4 | .sint32x2 | .uint32x2 | .float32x2 => 8
  | .sint32x3 | .uint32x3 | .float32x3 => 12
  | .sint32x4 | .uint32x4 | .float32x4 => 16

structure VAttribute where
  shaderLocation : ℕ
  offset : ℕ
  format : VFormat
deriving DecidableEq

/-- The loop body of `VertexArray.getStrideAndAttributes`: entries are
visited in declaration order; an entry not in the requested `properties`
list, or whose format is `undefined`, is skipped — note that a skipped
entry advances neither `stride` nor the shader-location counter. -/
def gsaLoop (props : Option (List String)) :
    List (String × Option VFormat) → ℕ → ℕ → List (String × VAttribute) →
    ℕ × List (String × VAttribute) × ℕ
  | [], stride, index, attrs => (stride, attrs, index)
  | (key, fmt) :: rest, stride, index, attrs =>
      let skip : Bool := match props with
        | some ps => ! ps.contains key
        | none => false
      if skip then gsaLoop props rest stride index attrs
      else match fmt with
        | none => gsaLoop props rest stride index attrs
        | some f =>
            gsaLoop props rest (stride + formatSize f) (index + 1)
              (attrs ++ [(key, ⟨index, stride, f⟩)])

/-- `VertexArray.getStrideAndAttributes(descriptor, startLocation,
properties)` returning `(stride, attributes, nextLocation)`. -/
def getStrideAndAttributes (descriptor : List (String × Option VFormat))
    (startLocation : ℕ) (properties : Option (List String)) :
    ℕ × List (String × VAttribute) × ℕ :=
  gsaLoop properties descriptor 0 startLocation []

/-! ## Index-width selection (`VertexArray` constructor) -/

inductive IndexKind where
  | uint16 : IndexKind
  | uint32 : IndexKind
deriving DecidableEq

/-- The index-processing block of the `VertexArray` constructor, run when
an index list is supplied: `maxIndex = Math.max(...indices)` (which is
`-Infinity` for an empty list, so neither the range check nor the
32-bit branch fires), a `RangeError` when `maxIndex >= vertexCount`, and
`indexSize = maxIndex > 0xFFFF ? 4 : 2` selecting the encoding. -/
def vaIndexSetup (vertexCount : ℕ) (indices : List ℕ) :
    Except VecErr IndexKind :=
  match indices.max? with
  | none => .ok .uint16
  | some m =>
      if vertexCount ≤ m then .error .rangeError
      else .ok (if 0xFFFF < m then .uint32 else .uint16)

/-! ## Deferred render scheduler (`Renderer` in `render.ts`)

A pass is modelled by its ordered list of draw steps; draw steps are
identified by a number.  `beginPass` pushes an empty pass on the
configuration stack (head = top of stack), `draw` appends to the top
pass, `endPass` pops it onto the queue. -/

inductive ROp where
  | beginPass : ROp
  | draw : ℕ → ROp
  | endPass : ROp
deriving DecidableEq

inductive RErr where
  | noPassConfigured : RErr
deriving DecidableEq

structure RState where
  configuringStack : List (List ℕ)
  passQueue : List (List ℕ)
deriving DecidableEq

def applyOp (s : RState) : ROp → Except RErr RState
  | .beginPass => .ok ⟨[] :: s.configuringStack, s.passQueue⟩
  | .draw n =>
      match s.configuringStack with
      | [] => .error .noPassConfigured
      | top :: rest => .ok ⟨(top ++ [n]) :: rest, s.passQueue⟩
  | .endPass =>
      match s.configuringStack with
      | [] => .error .noPassConfigured
      | top :: rest => .ok ⟨rest, s.passQueue ++ [top]⟩

def runOps (s : RState) : List ROp → Except RErr RState
  | [] => .ok s
  | op :: rest => (applyOp s op).bind fun s2 => runOps s2 rest

/-- The draw steps `Renderer.render` encodes, in encoding order: queued
passes in queue order, a pass with no render steps skipped, the steps of
each remaining pass in order. -/
def renderSteps (s : RState) : List ℕ :=
  (s.passQueue.filter (fun p => ¬ p.isEmpty)).flatten

/-- The state after `Renderer.render`: both the configuration stack and
the pass queue are reassigned to `[]` unconditionally after submission. -/
def renderFlush (_ : RState) : RState := ⟨[], []⟩

/-- The draw calls of an op sequence, in call order. -/
def drawCalls (ops : List ROp) : List ℕ :=
  ops.filterMap fun op =>
    match op with
    | .draw n => some n
    | _ => none

/-- A non-nested (sequential) op sequence: one `beginPass`, its draws,
one `endPass`, repeated. -/
def flatOps (blocks : List (List ℕ)) : List ROp :=
  (blocks.map fun b => ROp.beginPass :: (b.map ROp.draw) ++ [ROp.endPass]).flatten

/-! ## Bind-group slot resolution (`Renderer.render`, step encoding)

`render.bindGroups?.[i] ?? passInfo.defaultBindGroups?.[i]` — the
optional arrays hold `BindGroup | null`, an absent array or an
out-of-range read yields `undefined`, and `??` falls through on both
`null` and `undefined`.  The resolved group is bound only if truthy
(`if (bindGroup)`), otherwise the slot is left unbound. -/

inductive JsRef (β : Type) where
  | undefined : JsRef β
  | null : JsRef β
  | val : β → JsRef β
deriving DecidableEq

/-- JS `array?.[i]` on an optional array of nullable values. -/
def jsIndex {β : Type} (a : Option (List (Option β))) (i : ℕ) : JsRef β :=
  match a with
  | none => .undefined
  | some l =>
      match l[i]? with
      | none => .undefined
      | some none => .null
      | some (some x) => .val x

/-- JS `x ?? y`. -/
def coalesce {β : Type} (x y : JsRef β) : JsRef β :=
  match x with
  | .undefined => y
  | .null => y
  | .val v => .val v

/-- The bind group bound at slot `i` of a draw step (`none` = slot left
unbound). -/
def resolveSlot {β : Type} (stepGroups defaults : Option (List (Option β)))
    (i : ℕ) : Option β :=
  match coalesce (jsIndex stepGroups i) (jsIndex defaults i) with
  | .val v => some v
  | _ => none

/-! ## Asynchronous texture destruction (`texture.ts`)

Promises are modelled syntactically: `pext k` is a fresh
`Promise.resolve()` created by `getCurrentGPUTask` when no entry exists,
`base k` an external GPU task, and `chain p q` the promise
`p.then(() => q)` built by `setCurrentGPUTask`; `chain p q` is resolved
once both `p` and `q` are.  Promise identity (`===`) is structural
equality, which agrees with object identity because every store into the
task map either strictly enlarges the stored term or stores a
freshly-numbered `pext`. -/

inductive PExp where
  | pext : ℕ → PExp
  | base : ℕ → PExp
  | chain : PExp → PExp → PExp
deriving DecidableEq

/-- Whether a promise term is resolved, given the set (list) of
externally completed base tasks; `pext` is created already resolved. -/
def resolvedP (done : List ℕ) : PExp → Bool
  | .pext _ => true
  | .base k => done.contains k
  | .chain p q => resolvedP done p && resolvedP done q

/-- `x` is the promise `t` itself or appears in `t`'s `then`-chain. -/
def memChain (x : PExp) : PExp → Bool
  | .pext k => x = .pext k
  | .base k => x = .base k
  | .chain p q => x = .chain p q || memChain x p || memChain x q

/-- The task-tracking state of one texture wrapper around one underlying
`GPUTexture` handle: `done` lists completed external tasks, `tail` is
the `currentGPUTask` map entry for the handle, `checks` the pending
`destroyGPUTextureAfterPromise` continuations, `alive` whether
`this.texture` still refers to the handle, `freed` whether the handle
has been pushed onto the static destruction queue, and `fresh` numbers
newly created `Promise.resolve()` objects. -/
structure TexState where
  done : List ℕ
  tail : Option PExp
  checks : List PExp
  alive : Bool
  freed : Bool
  fresh : ℕ
deriving DecidableEq

/-- One scheduler step of the texture-destruction protocol. -/
inductive TStep : TexState → TexState → Prop where
  /-- An external GPU task completes. -/
  | tick (s : TexState) (k : ℕ) :
      TStep s { s with done := k :: s.done }
  /-- `setCurrentGPUTask(q)` while the texture is alive and a task entry
  exists: the entry becomes `existing.then(() => q)`. -/
  | chainTask (s : TexState) (q t : PExp) :
      s.alive = true → s.tail = some t →
      TStep s { s with tail := some (.chain t q) }
  /-- `setCurrentGPUTask(q)` with no existing entry:
  `getCurrentGPUTask` first creates and stores a fresh
  `Promise.resolve()`. -/
  | chainTaskFresh (s : TexState) (q : PExp) :
      s.alive = true → s.tail = none →
      TStep s { s with tail := some (.chain (.pext s.fresh) q),
                       fresh := s.fresh + 1 }
  /-- `destroyGPUTexture()`: captures the current entry, schedules the
  continuation on it, and releases `this.texture`. -/
  | destroy (s : TexState) (t : PExp) :
      s.alive = true → s.tail = some t →
      TStep s { s with checks := s.checks ++ [t], alive := false }
  /-- `destroyGPUTexture()` when no entry exists: `getCurrentGPUTask`
  creates, stores and captures a fresh resolved promise. -/
  | destroyFresh (s : TexState) :
      s.alive = true → s.tail = none →
      TStep s { s with checks := s.checks ++ [.pext s.fresh],
                       tail := some (.pext s.fresh), alive := false,
                       fresh := s.fresh + 1 }
  /-- A scheduled continuation runs (its promise has resolved) and finds
  the map entry unchanged: the handle goes on the destruction queue and
  the entry is cleared. -/
  | checkHit (s : TexState) (t : PExp) :
      t ∈ s.checks → resolvedP s.done t = true → s.tail = some t →
      TStep s { s with checks := s.checks.erase t, tail := none,
                       freed := true }
  /-- The continuation finds a newer entry: it re-schedules itself on the
  new chain tail. -/
  | checkMiss (s : TexState) (t cur : PExp) :
      t ∈ s.checks → resolvedP s.done t = true → s.tail = some cur →
      cur ≠ t →
      TStep s { s with checks := s.checks.erase t ++ [cur] }
  /-- The continuation finds the entry deleted: `getCurrentGPUTask`
  recreates a fresh resolved promise (a new object, hence not `===` the
  captured one) and the continuation re-schedules on it. -/
  | checkFresh (s : TexState) (t : PExp) :
      t ∈ s.checks → resolvedP s.done t = true → s.tail = none →
      TStep s { s with checks := s.checks.erase t ++ [.pext s.fresh],
                       tail := some (.pext s.fresh),
                       fresh := s.fresh + 1 }

/-! ## GLB parser (`glb/parser.ts`) -/

inductive GLBErr where
  | dataTooShort : GLBErr
  | badMagic : GLBErr
  | badVersion : ℕ → GLBErr
  | lengthMismatch : GLBErr
  | incompleteChunkHeader : GLBErr
  | multipleJSON : GLBErr
  | missingJSON : GLBErr
deriving DecidableEq

/-- Little-endian `getUint32` over a byte list (each entry `< 256`; all
reads the parser performs are guarded by earlier length checks, so the
default never surfaces). -/
def readU32 (b : List ℕ) (off : ℕ) : ℕ :=
  b.getD off 0 + 256 * b.getD (off + 1) 0 + 65536 * b.getD (off + 2) 0 +
    16777216 * b.getD (off + 3) 0

/-- The `'glTF'` magic constant. -/
def glbMagic : ℕ := 0x46546C67

/-- The JSON chunk type tag. -/
def glbJSONTag : ℕ := 0x4E4F534A

/-- The chunk loop of `GLBModel.fromArrayBuffer`: while bytes remain,
read the chunk header (error if fewer than 8 bytes remain), record a
JSON chunk (error on a second one), and advance by `8 + chunkLength`.
Returns whether a JSON chunk was seen.  The decoded JSON payload and the
final document construction are out of the parser's modelled scope (the
source returns a `null` placeholder); the payload decode is modelled as
succeeding. -/
def parseChunks (b : List ℕ) (offset : ℕ) (seenJSON : Bool) :
    Except GLBErr Bool :=
  if h : offset < b.length then
    if b.length < offset + 8 then .error .incompleteChunkHeader
    else
      let clen := readU32 b offset
      let ctype := readU32 b (offset + 4)
      if ctype = glbJSONTag then
        if seenJSON then .error .multipleJSON
        else parseChunks b (offset + 8 + clen) true
      else parseChunks b (offset + 8 + clen) seenJSON
  else .ok seenJSON
termination_by b.length - offset
decreasing_by all_goals omega

/-- The chunk type tags of a well-framed chunk region (`none` when a
chunk header is truncated). -/
def chunkTypes (b : List ℕ) (offset : ℕ) : Option (List ℕ) :=
  if h : offset < b.length then
    if b.length < offset + 8 then none
    else (chunkTypes b (offset + 8 + readU32 b offset)).map
        (readU32 b (offset + 4) :: ·)
  else some []
termination_by b.length - offset
decreasing_by all_goals omega

/-- `GLBModel.fromArrayBuffer` up to the validations the claim covers:
header length, magic, version, total length, chunk scan, JSON-chunk
presence. -/
def glbFromBytes (b : List ℕ) : Except GLBErr Unit :=
  if b.length < 12 then .error .dataTooShort
  else if readU32 b 0 ≠ glbMagic then .error .badMagic
  else if readU32 b 4 ≠ 2 then .error (.badVersion (readU32 b 4))
  else if readU32 b 8 ≠ b.length then .error .lengthMismatch
  else
    match parseChunks b 12 false with
    | .error e => .error e
    | .ok true => .ok ()
    | .ok false => .error .missingJSON

/-- The outcome of the chunk loop as a function of how many JSON-tagged
chunks the (well-framed) remaining region holds. -/
def chunkOutcome (seen : Bool) (nJSON : ℕ) : Except GLBErr Bool :=
  if seen then (if nJSON = 0 then .ok true else .error .multipleJSON)
  else if nJSON = 0 then .ok false
  else if nJSON = 1 then .ok true
  else .error .multipleJSON

/-- Witness buffer: valid 12-byte header, declared length 12, no
chunks. -/
def glbNoChunks : List ℕ := [103, 108, 84, 70, 2, 0, 0, 0, 12, 0, 0, 0]

/-- Witness buffer: valid header, declared length 32, followed by two
JSON-tagged chunks of payload length 2 each. -/
def glbTwoJSON : List ℕ :=
  [103, 108, 84, 70, 2, 0, 0, 0, 32, 0, 0, 0] ++
    [2, 0, 0, 0, 74, 83, 79, 78, 0, 0] ++
    [2, 0, 0, 0, 74, 83, 79, 78, 0, 0]

/-- Padding an offset up by `pad` lands on the smallest multiple of the
alignment that is at least the offset (for a positive alignment). -/
theorem addPad_spec (offset a : ℕ) (ha : 0 < a) :
    (offset + pad offset a) % a = 0 ∧ offset ≤ offset + pad offset a ∧
      ∀ o, offset ≤ o → o % a = 0 → offset + pad offset a ≤ o := by
  have hmod : offset % a < a := Nat.mod_lt _ ha
  have hq : a * (offset / a) + offset % a = offset := Nat.div_add_mod offset a
  refine ⟨?_, Nat.le_add_right _ _, ?_⟩
  · unfold pad
    rcases Nat.eq_zero_or_pos (offset % a) with h0 | hpos
    · simp [h0, Nat.mod_self]
    · have hsub : a - offset % a < a := by omega
      rw [Nat.mod_eq_of_lt hsub]
      have hrw : offset + (a - offset % a) = a * (offset / a) + a := by omega
      rw [hrw, Nat.mul_add_mod, Nat.mod_self]
  · intro o ho hoa
    unfold pad
    rcases Nat.eq_zero_or_pos (offset % a) with h0 | hpos
    · simp [h0, Nat.mod_self]; omega
    · have hsub : a - offset % a < a := by omega
      rw [Nat.mod_eq_of_lt hsub]
      obtain ⟨k, hk⟩ := Nat.dvd_of_mod_eq_zero hoa
      set q := offset / a with hqdef
      have h1 : a * q < a * k := by omega
      have h2 : q < k := lt_of_mul_lt_mul_left h1 (Nat.zero_le a)
      have h3 : a * (q + 1) ≤ a * k := Nat.mul_le_mul_left a h2
      have h4 : a * (q + 1) = a * q + a := by ring
      omega

/-- C1 counterexample: the struct constructed from
`{position: vec3, color: vec4, transform: mat4x4}` has field offsets
0/16/32 as claimed, but its total size is 96 bytes (32 + 64 for the
mat4x4, already a multiple of the 16-byte alignment), not 80. -/
theorem c1_struct_size_is_96_not_80 :
    structOffsets c1Descriptor 0 =
      [("position", 0), ("color", 16), ("transform", 32)] ∧
    getSize (.struct c1Descriptor) = 96 ∧
    getSize (.struct c1Descriptor) ≠ 80 := by decide

/-- C1 amended: constructing a Struct from
`{position: vec3, color: vec4, transform: mat4x4}` yields offsets 0 for
position, 16 for color, 32 for transform; the vec3 occupies a
16-byte-aligned slot with 12 bytes of content, the vec4 16 bytes, the
mat4x4 64 bytes, and the total size is 96 bytes (= 32 + 64, a multiple
of the struct's 16-byte alignment). -/
theorem c1_struct_layout :
    getAlignment (SVal.vec 3) = 16 ∧ getSize (SVal.vec 3) = 12 ∧
    getAlignment (SVal.vec 4) = 16 ∧ getSize (SVal.vec 4) = 16 ∧
    getAlignment (SVal.mat 4 4) = 16 ∧ getSize (SVal.mat 4 4) = 64 ∧
    structOffsets c1Descriptor 0 =
      [("position", 0), ("color", 16), ("transform", 32)] ∧
    getAlignment (SVal.struct c1Descriptor) = 16 ∧
    getSize (SVal.struct c1Descriptor) = 96 := by decide

/-- C4 counterexample: `append(0, mat3x3)` writes at offset 0 as the
claim requires, but returns `writeStructedView`'s count of 36 content
bytes (9 floats written contiguously), not
`offset' - offset + getSize() = 0 + 48`. -/
theorem c4_append_mat3_counterexample :
    appendOffset 0 (SVal.mat 3 3) = 0 ∧
    getSize (SVal.mat 3 3) = 48 ∧
    appendResult 0 (SVal.mat 3 3) = 36 ∧
    appendResult 0 (SVal.mat 3 3) ≠
      appendOffset 0 (SVal.mat 3 3) - 0 + getSize (SVal.mat 3 3) := by
  decide

/-- C4 amended: `append(offset, value)` writes at the smallest
`offset' ≥ offset` with `offset' % alignment = 0` and returns
`offset' - offset + w`, where `w` is the byte count reported by the
value's `writeStructedView`; `w` equals `getSize()` for scalars,
vectors and structs, and for matrices within the allowed dimensions
(2–4) exactly when the column count is not 3. -/
theorem c4_append_spec (offset : ℕ) (v : SVal)
    (ha : 0 < getAlignment v) :
    (appendOffset offset v % getAlignment v = 0 ∧
      offset ≤ appendOffset offset v ∧
      ∀ o, offset ≤ o → o % getAlignment v = 0 →
        appendOffset offset v ≤ o) ∧
    appendResult offset v = appendOffset offset v - offset + writeLen v ∧
    writeLen SVal.scalar = getSize SVal.scalar ∧
    (∀ d, writeLen (SVal.vec d) = getSize (SVal.vec d)) ∧
    (∀ fs, writeLen (SVal.struct fs) = getSize (SVal.struct fs)) ∧
    (∀ c r, 2 ≤ c → c ≤ 4 → c ≠ 3 →
      writeLen (SVal.mat c r) = getSize (SVal.mat c r)) := by
  refine ⟨addPad_spec offset (getAlignment v) ha, ?_, rfl, ?_, ?_, ?_⟩
  · simp [appendOffset, appendResult]
  · intro d; simp [writeLen, getSize]
  · intro fs; rfl
  · intro c r h2 h4 h3
    have hc : c = 2 ∨ c = 4 := by omega
    rcases hc with hc | hc <;> subst hc <;> simp [writeLen, getSize] <;> ring

/-- C4 witness: a concrete application — appending a vec3 at offset 5
writes at 16 (the next 16-byte boundary) and returns `16 - 5 + 12`. -/
theorem c4_append_spec_w :
    appendOffset 5 (SVal.vec 3) % getAlignment (SVal.vec 3) = 0 ∧
    appendResult 5 (SVal.vec 3) =
      appendOffset 5 (SVal.vec 3) - 5 + writeLen (SVal.vec 3) :=
  ⟨(c4_append_spec 5 (SVal.vec 3) (by decide)).1.1,
   (c4_append_spec 5 (SVal.vec 3) (by decide)).2.1⟩

/-- C2: evaluating the snorm8 encoder at the in-range input
`f = 29/2550 ≈ 0.01137`: the code computes `(f·255 − 1)/2 = 0.95`,
truncates to the byte 0, and the documented decode `max(0/127, −1) = 0`
misses `f` by `29/2550 > 1/127` — the claimed `1/127` round-trip bound
fails.  (The encoder maps `[-1,1]` onto `[-128,127]` via
`(f·255−1)/2` instead of WebGPU's snorm8 encoding `round(f·127)`.) -/
theorem c2_snorm8_roundtrip_fails :
    (-1 : ℚ) ≤ 29 / 2550 ∧ (29 / 2550 : ℚ) ≤ 1 ∧
    setNormalizedSignedByte (29 / 2550) = 0 ∧
    ¬ |decodeSnorm8 (setNormalizedSignedByte (29 / 2550)) - 29 / 2550| ≤
        1 / 127 := by
  have harg : ((29 : ℚ) / 2550 * 255 - 1) / 2 = 19 / 20 := by norm_num
  have hfloor : ⌊(19 / 20 : ℚ)⌋ = 0 := by
    rw [Int.floor_eq_iff]; norm_num
  have henc : setNormalizedSignedByte (29 / 2550) = 0 := by
    unfold setNormalizedSignedByte toInt8 jsTrunc
    rw [harg, if_pos (by norm_num : (0 : ℚ) ≤ 19 / 20), hfloor]
    norm_num
  refine ⟨by norm_num, by norm_num, henc, ?_⟩
  rw [henc]
  unfold decodeSnorm8
  rw [abs_le]
  push_neg
  intro h
  exfalso
  have hmax : max ((0 : ℚ) / 127) (-1) = 0 := by norm_num
  rw [Int.cast_zero, hmax] at h
  linarith

/-- The unorm8 half of the round-trip claim does hold: the encoder
truncates `f · 255` and the documented decode `v / 255` recovers `f`
within `1/255`. -/
theorem unorm8_roundtrip (f : ℚ) (h0 : 0 ≤ f) (h1 : f ≤ 1) :
    |decodeUnorm8 (setNormalizedUnsignedByte f) - f| ≤ 1 / 255 := by
  have h255 : (0 : ℚ) ≤ f * 255 := by positivity
  have hfl0 : (0 : ℤ) ≤ ⌊f * 255⌋ := Int.floor_nonneg.mpr h255
  have hfl255 : ⌊f * 255⌋ ≤ 255 := by
    have : f * 255 ≤ 255 := by nlinarith
    calc ⌊f * 255⌋ ≤ ⌊(255 : ℚ)⌋ := Int.floor_le_floor this
    _ = 255 := by norm_num
  have henc : setNormalizedUnsignedByte f = ⌊f * 255⌋ := by
    unfold setNormalizedUnsignedByte toUint8 jsTrunc
    rw [if_pos h255, Int.emod_eq_of_lt hfl0 (by omega)]
  rw [henc]
  have hlb : (⌊f * 255⌋ : ℚ) ≤ f * 255 := Int.floor_le _
  have hub : f * 255 < (⌊f * 255⌋ : ℚ) + 1 := Int.lt_floor_add_one _
  rw [abs_le]
  unfold decodeUnorm8
  constructor <;> nlinarith

/-- C8 counterexample: a negative component index is out of range for
the vector's dimension, yet `get(-1)` returns JS `undefined` instead of
throwing, and `set(-1, v)` silently writes nothing — neither fails. -/
theorem c8_negative_index_not_error :
    vectorGet [1, 2] (-1) = .ok .undefined ∧
    vectorSet [1, 2] (-1) 5 = .ok [1, 2] := ⟨rfl, rfl⟩

/-- C8 amended: `Vector.get`/`Vector.set` throw a `RangeError` exactly
for indices at or above the dimension; negative indices are not
range-checked — `get` returns `undefined` and `set` leaves the data
unchanged. -/
theorem c8_index_guard (data : List ℚ) (i : ℤ) :
    ((data.length : ℤ) ≤ i →
      vectorGet data i = .error .rangeError ∧
      ∀ q, vectorSet data i q = .error .rangeError) ∧
    (i < 0 →
      vectorGet data i = .ok .undefined ∧
      ∀ q, vectorSet data i q = .ok data) := by
  constructor
  · intro h
    constructor
    · simp [vectorGet, if_pos h]
    · intro q; simp [vectorSet, if_pos h]
  · intro h
    have h1 : ¬ ((data.length : ℤ) ≤ i) := by omega
    have h2 : ¬ ((0 : ℤ) ≤ i) := by omega
    constructor
    · simp [vectorGet, h1, h2]
    · intro q; simp [vectorSet, h1, h2]

/-- C8 witness: on a 2-component vector, index 5 throws and index −1
reads back `undefined` without throwing. -/
theorem c8_index_guard_w :
    vectorGet [1, 2] 5 = .error .rangeError ∧
    vectorGet [1, 2] (-1) = .ok .undefined :=
  ⟨((c8_index_guard [1, 2] 5).1 (by decide)).1,
   ((c8_index_guard [1, 2] (-1)).2 (by decide)).1⟩

/-- Unfolding: a requested entry with an `undefined` format is skipped. -/
theorem gsaLoop_keep_none (ps : List String) (key : String)
    (rest : List (String × Option VFormat)) (stride index : ℕ)
    (attrs : List (String × VAttribute)) (hk : ps.contains key = true) :
    gsaLoop (some ps) ((key, none) :: rest) stride index attrs =
      gsaLoop (some ps) rest stride index attrs := by
  have hk2 : key ∈ ps := by simpa using hk
  simp [gsaLoop, hk2]

/-- Unfolding: a requested entry emits its attribute and advances the
stride and location counters. -/
theorem gsaLoop_keep_some (ps : List String) (key : String) (f : VFormat)
    (rest : List (String × Option VFormat)) (stride index : ℕ)
    (attrs : List (String × VAttribute)) (hk : ps.contains key = true) :
    gsaLoop (some ps) ((key, some f) :: rest) stride index attrs =
      gsaLoop (some ps) rest (stride + formatSize f) (index + 1)
        (attrs ++ [(key, ⟨index, stride, f⟩)]) := by
  have hk2 : key ∈ ps := by simpa using hk
  simp [gsaLoop, hk2]

/-- Unfolding: a non-requested entry is skipped wholesale. -/
theorem gsaLoop_skip (ps : List String) (key : String)
    (fmt : Option VFormat) (rest : List (String × Option VFormat))
    (stride index : ℕ) (attrs : List (String × VAttribute))
    (hk : ps.contains key = false) :
    gsaLoop (some ps) ((key, fmt) :: rest) stride index attrs =
      gsaLoop (some ps) rest stride index attrs := by
  have hk2 : key ∉ ps := by simpa using hk
  simp [gsaLoop, hk2]

/-- Unfolding: with no filter, an `undefined`-format entry is skipped. -/
theorem gsaLoop_all_none (key : String)
    (rest : List (String × Option VFormat)) (stride index : ℕ)
    (attrs : List (String × VAttribute)) :
    gsaLoop none ((key, none) :: rest) stride index attrs =
      gsaLoop none rest stride index attrs := by
  simp [gsaLoop]

/-- Unfolding: with no filter, an entry emits its attribute. -/
theorem gsaLoop_all_some (key : String) (f : VFormat)
    (rest : List (String × Option VFormat)) (stride index : ℕ)
    (attrs : List (String × VAttribute)) :
    gsaLoop none ((key, some f) :: rest) stride index attrs =
      gsaLoop none rest (stride + formatSize f) (index + 1)
        (attrs ++ [(key, ⟨index, stride, f⟩)]) := by
  simp [gsaLoop]

/-- A subset request runs the same loop as filtering the descriptor down
to the requested keys first: skipped entries advance neither the stride
nor the shader-location counter. -/
theorem gsaLoop_eq_filter (ps : List String) :
    ∀ (desc : List (String × Option VFormat)) (stride index : ℕ)
      (attrs : List (String × VAttribute)),
      gsaLoop (some ps) desc stride index attrs =
        gsaLoop none (desc.filter fun e => ps.contains e.1) stride index
          attrs := by
  intro desc
  induction desc with
  | nil => intro stride index attrs; rfl
  | cons e rest ih =>
      obtain ⟨key, fmt⟩ := e
      intro stride index attrs
      rcases hb : ps.contains key with hfalse | htrue
      · rw [gsaLoop_skip ps key fmt rest stride index attrs hb,
          List.filter_cons, if_neg (by simpa using hb)]
        exact ih _ _ _
      · cases fmt with
        | none =>
            rw [gsaLoop_keep_none ps key rest stride index attrs hb,
              List.filter_cons, if_pos (by simpa using hb),
              gsaLoop_all_none]
            exact ih _ _ _
        | some f =>
            rw [gsaLoop_keep_some ps key f rest stride index attrs hb,
              List.filter_cons, if_pos (by simpa using hb),
              gsaLoop_all_some]
            exact ih _ _ _

/-- Every attribute the subset loop emits carries a requested key. -/
theorem gsaLoop_keys_requested (ps : List String) :
    ∀ (desc : List (String × Option VFormat)) (stride index : ℕ)
      (attrs : List (String × VAttribute)),
      (∀ kv ∈ attrs, kv.1 ∈ ps) →
      ∀ kv ∈ (gsaLoop (some ps) desc stride index attrs).2.1, kv.1 ∈ ps := by
  intro desc
  induction desc with
  | nil => intro stride index attrs h kv hkv; exact h kv hkv
  | cons e rest ih =>
      obtain ⟨key, fmt⟩ := e
      intro stride index attrs h kv hkv
      rcases hb : ps.contains key with hfalse | htrue
      · rw [gsaLoop_skip ps key fmt rest stride index attrs hb] at hkv
        exact ih _ _ _ h kv hkv
      · cases fmt with
        | none =>
            rw [gsaLoop_keep_none ps key rest stride index attrs hb] at hkv
            exact ih _ _ _ h kv hkv
        | some f =>
            rw [gsaLoop_keep_some ps key f rest stride index attrs hb]
              at hkv
            refine ih _ _ _ ?_ kv hkv
            intro kv2 hkv2
            rcases List.mem_append.mp hkv2 with h2 | h2
            · exact h kv2 h2
            · have he : kv2 = (key, ⟨index, stride, f⟩) := by simpa using h2
              subst he
              simpa using hb

/-- C3 counterexample: for the descriptor
`{a: float32x2, b: float32x2}`, requesting only `b` yields a layout in
which `b` has byte offset 0, whereas in the layout of the full
per-vertex record `b` has byte offset 8 — subset offsets are compacted
over the requested attributes, not taken from the full record shape. -/
theorem c3_subset_offset_counterexample :
    ((getStrideAndAttributes
        [("a", some VFormat.float32x2), ("b", some VFormat.float32x2)]
        0 (some ["b"])).2.1.map fun kv => (kv.1, kv.2.offset)) =
      [("b", 0)] ∧
    ((getStrideAndAttributes
        [("a", some VFormat.float32x2), ("b", some VFormat.float32x2)]
        0 none).2.1.map fun kv => (kv.1, kv.2.offset)) =
      [("a", 0), ("b", 8)] := by decide

/-- C3 amended: a subset request produces a layout containing only the
requested attributes, and that layout — stride, offsets and shader
locations alike — equals the full layout of the descriptor first
filtered down to the requested keys; offsets are therefore sums of the
sizes of the earlier *requested* attributes (compacted), not offsets in
the full per-vertex record. -/
theorem c3_subset_layout (descriptor : List (String × Option VFormat))
    (start : ℕ) (ps : List String) :
    (∀ kv ∈ (getStrideAndAttributes descriptor start (some ps)).2.1,
      kv.1 ∈ ps) ∧
    getStrideAndAttributes descriptor start (some ps) =
      getStrideAndAttributes (descriptor.filter fun e => ps.contains e.1)
        start none :=
  ⟨gsaLoop_keys_requested ps descriptor 0 start [] (by simp),
   gsaLoop_eq_filter ps descriptor 0 start []⟩

/-- C3 witness: the subset request `["b"]` on `{a, b}` equals the full
layout of the filtered descriptor, and the single emitted attribute's
key is the requested `"b"`. -/
theorem c3_subset_layout_w :
    getStrideAndAttributes
        [("a", some VFormat.float32x2), ("b", some VFormat.float32x2)]
        0 (some ["b"]) =
      getStrideAndAttributes
        ([("a", some VFormat.float32x2),
          ("b", some VFormat.float32x2)].filter
          fun e => ["b"].contains e.1) 0 none ∧
    ("b" : String) ∈ ["b"] :=
  ⟨(c3_subset_layout [("a", some VFormat.float32x2),
      ("b", some VFormat.float32x2)] 0 ["b"]).2,
   (c3_subset_layout [("a", some VFormat.float32x2),
      ("b", some VFormat.float32x2)] 0 ["b"]).1
     ("b", ⟨0, 0, VFormat.float32x2⟩) (by decide)⟩

/-- C7: when a `VertexArray` is built with indices of maximum `m` that
pass the range check (`m < vertexCount`), the 16-bit encoding is chosen
iff `m ≤ 0xFFFF` and the 32-bit encoding iff `0xFFFF < m`; and whenever
some index exceeds the vertex count, construction throws
`RangeError("Index Out Of Range")`. -/
theorem c7_index_width (vc : ℕ) (l : List ℕ) (m : ℕ)
    (hm : l.max? = some m) :
    (m < vc →
      (vaIndexSetup vc l = .ok .uint16 ↔ m ≤ 0xFFFF) ∧
      (vaIndexSetup vc l = .ok .uint32 ↔ 0xFFFF < m)) ∧
    ((∃ i ∈ l, vc < i) → vaIndexSetup vc l = .error .rangeError) := by
  have hle : ∀ x ∈ l, x ≤ m := by
    rw [List.max?_eq_some_iff] at hm
    · exact hm.2
    all_goals simp [le_total]
  have e1 : vaIndexSetup vc l =
      if vc ≤ m then .error .rangeError
      else .ok (if 0xFFFF < m then .uint32 else .uint16) := by
    unfold vaIndexSetup
    rw [hm]
  constructor
  · intro hlt
    have hnot : ¬ vc ≤ m := by omega
    have h16 : vaIndexSetup vc l =
        .ok (if 0xFFFF < m then .uint32 else .uint16) := by
      rw [e1, if_neg hnot]
    constructor
    · constructor
      · intro h
        by_contra hc
        rw [h16, if_pos (by omega)] at h
        exact IndexKind.noConfusion (Except.ok.inj h)
      · intro h
        rw [h16, if_neg (by omega)]
    · constructor
      · intro h
        by_contra hc
        rw [h16, if_neg hc] at h
        exact IndexKind.noConfusion (Except.ok.inj h)
      · intro h
        rw [h16, if_pos h]
  · rintro ⟨i, hi, hvc⟩
    have hvm : vc ≤ m := le_trans (Nat.le_of_lt hvc) (hle i hi)
    rw [e1, if_pos hvm]

/-- C7 witness: indices `[0,1,2]` on 3 vertices select uint16; indices
`[0,100000]` on 200000 vertices select uint32; index 5 on 3 vertices
throws. -/
theorem c7_index_width_w :
    vaIndexSetup 3 [0, 1, 2] = .ok .uint16 ∧
    vaIndexSetup 200000 [0, 100000] = .ok .uint32 ∧
    vaIndexSetup 3 [5] = .error .rangeError :=
  ⟨(((c7_index_width 3 [0, 1, 2] 2 (by decide)).1 (by decide)).1).mpr
      (by decide),
   (((c7_index_width 200000 [0, 100000] 100000 (by decide)).1
      (by decide)).2).mpr (by decide),
   (c7_index_width 3 [5] 5 (by decide)).2 (by decide)⟩

/-- Running an op sequence decomposes over concatenation. -/
theorem runOps_append (s : RState) (l1 l2 : List ROp) :
    runOps s (l1 ++ l2) = (runOps s l1).bind fun s2 => runOps s2 l2 := by
  induction l1 generalizing s with
  | nil => simp [runOps, Except.bind]
  | cons op rest ih =>
      simp only [List.cons_append, runOps]
      cases applyOp s op with
      | error e => simp [Except.bind]
      | ok s2 => simp [Except.bind, ih]

/-- A run of `draw` calls appends the drawn steps to the top-of-stack
pass, in call order. -/
theorem runOps_draws (b : List ℕ) :
    ∀ (acc : List ℕ) (stack q : List (List ℕ)),
      runOps ⟨acc :: stack, q⟩ (b.map ROp.draw) =
        .ok ⟨(acc ++ b) :: stack, q⟩ := by
  induction b with
  | nil => intro acc stack q; simp [runOps]
  | cons n ns ih =>
      intro acc stack q
      simp only [List.map_cons, runOps, applyOp, Except.bind]
      rw [ih (acc ++ [n]) stack q]
      simp

/-- A non-nested sequence runs without error: each block is begun,
drawn, and queued in order, leaving the configuration stack empty. -/
theorem runOps_flat (blocks : List (List ℕ)) :
    ∀ q, runOps ⟨[], q⟩ (flatOps blocks) = .ok ⟨[], q ++ blocks⟩ := by
  induction blocks with
  | nil => intro q; simp [flatOps, runOps]
  | cons b bs ih =>
      intro q
      have hsplit : flatOps (b :: bs) =
          [ROp.beginPass] ++ (b.map ROp.draw ++ ([ROp.endPass] ++
            flatOps bs)) := by
        simp [flatOps]
      have hb : runOps ⟨[], q⟩ [ROp.beginPass] = .ok ⟨[[]], q⟩ := rfl
      have he : runOps ⟨[b], q⟩ [ROp.endPass] = .ok ⟨[], q ++ [b]⟩ := rfl
      rw [hsplit, runOps_append, hb]
      simp only [Except.bind]
      rw [runOps_append, runOps_draws b [] [] q]
      simp only [Except.bind, List.nil_append]
      rw [runOps_append, he]
      simp only [Except.bind]
      rw [ih (q ++ [b])]
      simp

/-- Skipping empty passes during encoding does not change the executed
steps: a pass with no render steps contributes nothing either way. -/
theorem renderSteps_flatten (stack q : List (List ℕ)) :
    renderSteps ⟨stack, q⟩ = q.flatten := by
  unfold renderSteps
  induction q with
  | nil => rfl
  | cons p ps ih =>
      by_cases hp : p.isEmpty
      · have : p = [] := List.isEmpty_iff.mp hp
        subst this
        simpa using ih
      · simp only [List.filter_cons]
        rw [if_pos (by simpa using hp)]
        simp only [List.flatten_cons]
        rw [ih]

/-- `drawCalls` distributes over concatenation. -/
theorem drawCalls_append (l1 l2 : List ROp) :
    drawCalls (l1 ++ l2) = drawCalls l1 ++ drawCalls l2 :=
  List.filterMap_append l1 l2 _

/-- The draw calls of a pure run of `draw` ops are the drawn steps. -/
theorem drawCalls_draws (b : List ℕ) :
    drawCalls (b.map ROp.draw) = b := by
  induction b with
  | nil => rfl
  | cons n ns ih =>
      simp only [List.map_cons, drawCalls, List.filterMap_cons]
      simpa [drawCalls] using ih

/-- The draw calls of a non-nested sequence, in call order. -/
theorem drawCalls_flatOps (blocks : List (List ℕ)) :
    drawCalls (flatOps blocks) = blocks.flatten := by
  induction blocks with
  | nil => rfl
  | cons b bs ih =>
      have hsplit : flatOps (b :: bs) =
          [ROp.beginPass] ++ (b.map ROp.draw ++ ([ROp.endPass] ++
            flatOps bs)) := by
        simp [flatOps]
      rw [hsplit, drawCalls_append, drawCalls_append, drawCalls_append,
        drawCalls_draws, ih]
      rfl

/-- C5 counterexample: the nested (error-free) sequence
`beginPass; draw 1; beginPass; draw 2; endPass; draw 3; endPass` queues
the inner pass first, so the flush executes the steps as `[2, 1, 3]`,
not in draw-call order `[1, 2, 3]`. -/
theorem c5_nested_pass_reorders :
    runOps ⟨[], []⟩ [ROp.beginPass, ROp.draw 1, ROp.beginPass, ROp.draw 2,
        ROp.endPass, ROp.draw 3, ROp.endPass] =
      .ok ⟨[], [[2], [1, 3]]⟩ ∧
    renderSteps ⟨[], [[2], [1, 3]]⟩ = [2, 1, 3] ∧
    drawCalls [ROp.beginPass, ROp.draw 1, ROp.beginPass, ROp.draw 2,
        ROp.endPass, ROp.draw 3, ROp.endPass] = [1, 2, 3] ∧
    ([2, 1, 3] : List ℕ) ≠ [1, 2, 3] := ⟨rfl, rfl, rfl, by decide⟩

/-- C5 amended: for any *non-nested* sequence of
`beginPass / draw* / endPass` blocks (the code also accepts nested
passes, which execute inner-pass steps before the remaining outer-pass
steps), the flush executes the recorded draw steps in exactly draw-call
order — empty passes are skipped during encoding but contribute no
steps — and after any flush both the pass queue and the configuration
stack are empty unconditionally. -/
theorem c5_flat_order (blocks : List (List ℕ)) :
    ∃ s, runOps ⟨[], []⟩ (flatOps blocks) = .ok s ∧
      renderSteps s = drawCalls (flatOps blocks) ∧
      ∀ t : RState, (renderFlush t).passQueue = [] ∧
        (renderFlush t).configuringStack = [] := by
  refine ⟨⟨[], blocks⟩, ?_, ?_, fun t => ⟨rfl, rfl⟩⟩
  · simpa using runOps_flat blocks []
  · rw [renderSteps_flatten, drawCalls_flatOps]

/-- C10: during step encoding, a step whose `bindGroups` array holds an
explicit `null` at slot `i` resolves identically to a step whose array
has no entry at `i` at all (both fall through `??` to the pass's
`defaultBindGroups[i]`); and a slot where the default is also
`null`/absent is left unbound, while a present default gets bound. -/
theorem c10_null_bindgroup_is_missing {β : Type}
    (defaults : Option (List (Option β))) (i : ℕ)
    (l : List (Option β)) (hl : l[i]? = some none)
    (l2 : List (Option β)) (h2 : l2.length ≤ i) :
    resolveSlot (some l) defaults i = resolveSlot none defaults i ∧
    resolveSlot (some l2) defaults i = resolveSlot none defaults i ∧
    ((jsIndex defaults i = .null ∨ jsIndex defaults i = .undefined) →
      resolveSlot (some l) defaults i = none) ∧
    (∀ g, jsIndex defaults i = .val g →
      resolveSlot (some l) defaults i = some g) := by
  have hj1 : jsIndex (some l) i = .null := by simp [jsIndex, hl]
  have hj2 : jsIndex (some l2) i = .undefined := by
    have hn : l2[i]? = none := List.getElem?_eq_none h2
    simp [jsIndex, hn]
  have hj0 : jsIndex (β := β) none i = .undefined := rfl
  refine ⟨?_, ?_, ?_, ?_⟩
  · simp [resolveSlot, coalesce, hj1, hj0]
  · simp [resolveSlot, coalesce, hj2, hj0]
  · rintro (h | h) <;> simp [resolveSlot, coalesce, hj1, h]
  · intro g hg; simp [resolveSlot, coalesce, hj1, hg]

/-- C10 witness: with default bind group 7 at slot 0, a step supplying
`[null]` resolves slot 0 the same as a step supplying no entry. -/
theorem c10_null_bindgroup_is_missing_w :
    resolveSlot (some [(none : Option ℕ)]) (some [some 7]) 0 =
      resolveSlot none (some [some 7]) 0 ∧
    resolveSlot (some ([] : List (Option ℕ))) (some [some 7]) 0 =
      resolveSlot none (some [some 7]) 0 :=
  ⟨(c10_null_bindgroup_is_missing (some [some 7]) 0 [none] rfl []
      (by decide)).1,
   (c10_null_bindgroup_is_missing (some [some 7]) 0 [none] rfl []
      (by decide)).2.1⟩

/-- Over a well-framed chunk region, the chunk loop's outcome depends
only on the starting flag and the number of JSON-tagged chunks. -/
theorem parseChunks_eq_outcome (b : List ℕ) :
    ∀ (n offset : ℕ), b.length - offset ≤ n → ∀ (seen : Bool)
      (ts : List ℕ), chunkTypes b offset = some ts →
      parseChunks b offset seen =
        chunkOutcome seen (ts.count glbJSONTag) := by
  intro n
  induction n with
  | zero =>
      intro offset hle seen ts hct
      have hnot : ¬ offset < b.length := by omega
      rw [chunkTypes, dif_neg hnot] at hct
      obtain rfl : ts = [] := (Option.some.inj hct).symm
      rw [parseChunks, dif_neg hnot]
      cases seen <;> rfl
  | succ n ih =>
      intro offset hle seen ts hct
      by_cases h : offset < b.length
      · rw [chunkTypes, dif_pos h] at hct
        rw [parseChunks, dif_pos h]
        by_cases h8 : b.length < offset + 8
        · rw [if_pos h8] at hct
          exact absurd hct (by simp)
        · rw [if_neg h8] at hct
          rw [if_neg h8]
          obtain ⟨ts2, hts2, rfl⟩ : ∃ ts2,
              chunkTypes b (offset + 8 + readU32 b offset) = some ts2 ∧
                ts = readU32 b (offset + 4) :: ts2 := by
            cases hchk : chunkTypes b (offset + 8 + readU32 b offset) with
            | none => rw [hchk] at hct; simp at hct
            | some l =>
                rw [hchk] at hct
                simp at hct
                exact ⟨l, rfl, hct.symm⟩
          have hnext : b.length - (offset + 8 + readU32 b offset) ≤ n := by
            omega
          by_cases hj : readU32 b (offset + 4) = glbJSONTag
          · rw [if_pos hj]
            have hcount : (readU32 b (offset + 4) :: ts2).count glbJSONTag
                = ts2.count glbJSONTag + 1 := by
              simp [List.count_cons, hj]
            rw [hcount]
            cases seen with
            | true => simp [chunkOutcome]
            | false =>
                rw [ih _ hnext true ts2 hts2]
                by_cases hz : ts2.count glbJSONTag = 0 <;>
                  simp [chunkOutcome, hz]
          · rw [if_neg hj]
            have hcount : (readU32 b (offset + 4) :: ts2).count glbJSONTag
                = ts2.count glbJSONTag := by
              simp [List.count_cons, hj]
            rw [hcount]
            exact ih _ hnext seen ts2 hts2
      · rw [chunkTypes, dif_neg h] at hct
        obtain rfl : ts = [] := (Option.some.inj hct).symm
        rw [parseChunks, dif_neg h]
        cases seen <;> rfl

/-- C9: for a buffer long enough to carry a header, the parser fails
with the error of the first violated check: a malformed magic, a
version other than 2, a declared length different from the buffer
length, more than one JSON-tagged chunk in a well-framed chunk region,
or no JSON-tagged chunk at all. -/
theorem c9_glb_parser_errors (b : List ℕ) (h12 : 12 ≤ b.length) :
    (readU32 b 0 ≠ glbMagic → glbFromBytes b = .error .badMagic) ∧
    (readU32 b 0 = glbMagic → readU32 b 4 ≠ 2 →
      glbFromBytes b = .error (.badVersion (readU32 b 4))) ∧
    (readU32 b 0 = glbMagic → readU32 b 4 = 2 → readU32 b 8 ≠ b.length →
      glbFromBytes b = .error .lengthMismatch) ∧
    (∀ ts, readU32 b 0 = glbMagic → readU32 b 4 = 2 →
      readU32 b 8 = b.length → chunkTypes b 12 = some ts →
      (2 ≤ ts.count glbJSONTag → glbFromBytes b = .error .multipleJSON) ∧
      (ts.count glbJSONTag = 0 → glbFromBytes b = .error .missingJSON)) := by
  have hnot : ¬ b.length < 12 := by omega
  refine ⟨?_, ?_, ?_, ?_⟩
  · intro hm
    rw [glbFromBytes, if_neg hnot, if_pos hm]
  · intro hm hv
    rw [glbFromBytes, if_neg hnot, if_neg (by simp [hm]), if_pos hv]
  · intro hm hv hl
    rw [glbFromBytes, if_neg hnot, if_neg (by simp [hm]),
      if_neg (by simp [hv]), if_pos hl]
  · intro ts hm hv hl hts
    have hrun : parseChunks b 12 false =
        chunkOutcome false (ts.count glbJSONTag) :=
      parseChunks_eq_outcome b (b.length - 12) 12 (by omega) false ts hts
    constructor
    · intro h2
      rw [glbFromBytes, if_neg hnot, if_neg (by simp [hm]),
        if_neg (by simp [hv]), if_neg (by simp [hl]), hrun]
      unfold chunkOutcome
      rw [if_neg (by simp), if_neg (by omega), if_neg (by omega)]
    · intro h0
      rw [glbFromBytes, if_neg hnot, if_neg (by simp [hm]),
        if_neg (by simp [hv]), if_neg (by simp [hl]), hrun]
      unfold chunkOutcome
      rw [if_neg (by simp), if_pos h0]

/-- The witness buffer with no chunks frames to an empty chunk list. -/
theorem chunkTypes_glbNoChunks : chunkTypes glbNoChunks 12 = some [] := by
  rw [chunkTypes]
  norm_num [glbNoChunks]

/-- The witness buffer with two JSON chunks frames to two JSON tags. -/
theorem chunkTypes_glbTwoJSON :
    chunkTypes glbTwoJSON 12 = some [glbJSONTag, glbJSONTag] := by
  have h12 : readU32 glbTwoJSON 12 = 2 := by decide
  have h16 : readU32 glbTwoJSON 16 = glbJSONTag := by decide
  have h22 : readU32 glbTwoJSON 22 = 2 := by decide
  have h26 : readU32 glbTwoJSON 26 = glbJSONTag := by decide
  rw [chunkTypes, dif_pos (by decide), if_neg (by decide), h12]
  rw [chunkTypes, dif_pos (by decide), if_neg (by decide), h22]
  rw [chunkTypes, dif_neg (by decide)]
  rw [h16, h26]
  rfl

/-- C9 witness: concrete malformed buffers hit each of the five checks:
zero magic, version 3, declared length 13 on a 12-byte buffer, two JSON
chunks, and a chunkless (hence JSON-less) body. -/
theorem c9_glb_parser_errors_w :
    glbFromBytes [0, 0, 0, 0, 2, 0, 0, 0, 12, 0, 0, 0] =
      .error .badMagic ∧
    glbFromBytes [103, 108, 84, 70, 3, 0, 0, 0, 12, 0, 0, 0] =
      .error (.badVersion 3) ∧
    glbFromBytes [103, 108, 84, 70, 2, 0, 0, 0, 13, 0, 0, 0] =
      .error .lengthMismatch ∧
    glbFromBytes glbTwoJSON = .error .multipleJSON ∧
    glbFromBytes glbNoChunks = .error .missingJSON :=
  ⟨(c9_glb_parser_errors [0, 0, 0, 0, 2, 0, 0, 0, 12, 0, 0, 0]
      (by decide)).1 (by decide),
   (c9_glb_parser_errors [103, 108, 84, 70, 3, 0, 0, 0, 12, 0, 0, 0]
      (by decide)).2.1 (by decide) (by decide),
   (c9_glb_parser_errors [103, 108, 84, 70, 2, 0, 0, 0, 13, 0, 0, 0]
      (by decide)).2.2.1 (by decide) (by decide) (by decide),
   ((c9_glb_parser_errors glbTwoJSON (by decide)).2.2.2
      [glbJSONTag, glbJSONTag] (by decide) (by decide) (by decide)
      chunkTypes_glbTwoJSON).1 (by decide),
   ((c9_glb_parser_errors glbNoChunks (by decide)).2.2.2 [] (by decide)
      (by decide) (by decide) chunkTypes_glbNoChunks).2 (by decide)⟩

/-- Resolvedness is monotone in the set of completed external tasks. -/
theorem resolvedP_mono (done : List ℕ) (k : ℕ) (t : PExp)
    (h : resolvedP done t = true) : resolvedP (k :: done) t = true := by
  induction t with
  | pext j => rfl
  | base j => simp [resolvedP] at h ⊢; simp [h]
  | chain p q ihp ihq =>
      simp only [resolvedP, Bool.and_eq_true] at h ⊢
      exact ⟨ihp h.1, ihq h.2⟩

/-- A resolved promise has every member of its `then`-chain resolved. -/
theorem resolvedP_of_memChain (done : List ℕ) (t x : PExp)
    (hm : memChain x t = true) (hr : resolvedP done t = true) :
    resolvedP done x = true := by
  induction t with
  | pext j => simp [memChain] at hm; subst hm; exact hr
  | base j => simp [memChain] at hm; subst hm; exact hr
  | chain p q ihp ihq =>
      simp only [memChain, Bool.or_eq_true] at hm
      simp only [resolvedP, Bool.and_eq_true] at hr
      rcases hm with (hm | hm) | hm
      · have hx : x = PExp.chain p q := by simpa using hm
        subst hx
        simp [resolvedP, hr.1, hr.2]
      · exact ihp hm hr.1
      · exact ihq hm hr.2

/-- The invariant carried from the moment of `destroyGPUTexture()`:
either the handle is still pending with the captured chain `T` both the
sole scheduled continuation and the unchanged map entry, or it has been
freed and `T` was fully resolved at that moment. -/
def DestroyInv (T : PExp) (s : TexState) : Prop :=
  (s.freed = false ∧ s.alive = false ∧ s.tail = some T ∧
    s.checks = [T]) ∨
  (s.freed = true ∧ resolvedP s.done T = true)

/-- Each protocol step preserves the destroy invariant. -/
theorem destroyInv_step (T : PExp) (s s2 : TexState)
    (hstep : TStep s s2) (hinv : DestroyInv T s) : DestroyInv T s2 := by
  rcases hinv with ⟨hf, ha, ht, hc⟩ | ⟨hf, hr⟩
  · cases hstep with
    | tick k => exact Or.inl ⟨hf, ha, ht, hc⟩
    | chainTask q t h1 h2 => rw [ha] at h1; cases h1
    | chainTaskFresh q h1 h2 => rw [ha] at h1; cases h1
    | destroy t h1 h2 => rw [ha] at h1; cases h1
    | destroyFresh h1 h2 => rw [ha] at h1; cases h1
    | checkHit t h1 h2 h3 =>
        rw [hc] at h1
        have het : t = T := by simpa using h1
        subst het
        exact Or.inr ⟨rfl, h2⟩
    | checkMiss t cur h1 h2 h3 h4 =>
        rw [hc] at h1
        have het : t = T := by simpa using h1
        subst het
        rw [ht] at h3
        exact absurd (Option.some.inj h3).symm h4
    | checkFresh t h1 h2 h3 =>
        rw [ht] at h3
        cases h3
  · cases hstep with
    | tick k => exact Or.inr ⟨hf, resolvedP_mono _ k _ hr⟩
    | chainTask q t h1 h2 => exact Or.inr ⟨hf, hr⟩
    | chainTaskFresh q h1 h2 => exact Or.inr ⟨hf, hr⟩
    | destroy t h1 h2 => exact Or.inr ⟨hf, hr⟩
    | destroyFresh h1 h2 => exact Or.inr ⟨hf, hr⟩
    | checkHit t h1 h2 h3 => exact Or.inr ⟨rfl, hr⟩
    | checkMiss t cur h1 h2 h3 h4 => exact Or.inr ⟨hf, hr⟩
    | checkFresh t h1 h2 h3 => exact Or.inr ⟨hf, hr⟩

/-- C6: if a texture is destroyed while its captured task chain `T` is
outstanding (the state right after `destroyGPUTexture()`: released,
not yet freed, continuation scheduled on `T`, map entry still `T`),
then in every reachable later state in which the handle has been pushed
onto the physical-free destruction queue, every promise in `T`'s chain
has resolved — in particular the outstanding task `P`, and any second
task `Q` that was chained onto the texture's tail before the destroy
(the captured tail is then `P.then(() => Q)`, and freeing waits for the
whole chain, not merely `P`). -/
theorem c6_destroy_defers_until_chain (T : PExp) (s2 : TexState)
    (ha : s2.alive = false) (hf : s2.freed = false)
    (ht : s2.tail = some T) (hc : s2.checks = [T])
    (s3 : TexState) (hreach : Relation.ReflTransGen TStep s2 s3)
    (hfreed : s3.freed = true) :
    ∀ x, memChain x T = true → resolvedP s3.done x = true := by
  have hinv : ∀ s4, Relation.ReflTransGen TStep s2 s4 → DestroyInv T s4 := by
    intro s4 hr4
    induction hr4 with
    | refl => exact Or.inl ⟨hf, ha, ht, hc⟩
    | tail hsteps hstep ih => exact destroyInv_step T _ _ hstep ih
  intro x hx
  rcases hinv s3 hreach with ⟨hf3, _⟩ | ⟨_, hr⟩
  · rw [hfreed] at hf3; cases hf3
  · exact resolvedP_of_memChain _ _ _ hx hr

/-- C6 witness: the concrete scenario — task `P = base 0` outstanding,
`Q = base 1` chained before the destroy, so the captured tail is
`chain (base 0) (base 1)`; after both tasks complete, the continuation
fires and frees the handle, at which point the theorem yields that both
`P` and `Q` are resolved. -/
theorem c6_destroy_defers_until_chain_w :
    resolvedP [1, 0] (.base 0) = true ∧
    resolvedP [1, 0] (.base 1) = true := by
  have h0 : TStep
      ⟨[], some (.chain (.base 0) (.base 1)),
        [.chain (.base 0) (.base 1)], false, false, 0⟩
      ⟨[0], some (.chain (.base 0) (.base 1)),
        [.chain (.base 0) (.base 1)], false, false, 0⟩ :=
    TStep.tick _ 0
  have h1 : TStep
      ⟨[0], some (.chain (.base 0) (.base 1)),
        [.chain (.base 0) (.base 1)], false, false, 0⟩
      ⟨[1, 0], some (.chain (.base 0) (.base 1)),
        [.chain (.base 0) (.base 1)], false, false, 0⟩ :=
    TStep.tick _ 1
  have h2 : TStep
      ⟨[1, 0], some (.chain (.base 0) (.base 1)),
        [.chain (.base 0) (.base 1)], false, false, 0⟩
      ⟨[1, 0], none, [], false, true, 0⟩ := by
    have := TStep.checkHit
      ⟨[1, 0], some (.chain (.base 0) (.base 1)),
        [.chain (.base 0) (.base 1)], false, false, 0⟩
      (.chain (.base 0) (.base 1)) (by simp) (by decide) rfl
    simpa [List.erase] using this
  have hreach : Relation.ReflTransGen TStep
      ⟨[], some (.chain (.base 0) (.base 1)),
        [.chain (.base 0) (.base 1)], false, false, 0⟩
      ⟨[1, 0], none, [], false, true, 0⟩ :=
    Relation.ReflTransGen.head h0
      (Relation.ReflTransGen.head h1 (Relation.ReflTransGen.single h2))
  exact ⟨c6_destroy_defers_until_chain (.chain (.base 0) (.base 1)) _
      rfl rfl rfl rfl _ hreach rfl (.base 0) (by decide),
    c6_destroy_defers_until_chain (.chain (.base 0) (.base 1)) _
      rfl rfl rfl rfl _ hreach rfl (.base 1) (by decide)⟩

end VB

